import Mathlib

/-!
Verification of the request-middleware helpers of `pcr/utils.py`:
`authenticate`, `allow`, `parameter` and `pagination`.

The Python code is shallowly embedded: request/response objects become
Lean structures, the decorators become functions from a handler and a
request to a result recording the produced response, the final request
context and whether the inner handler was invoked.  The JSON parser
(`json.loads`) and the black-box schema validator (`jsonschema.validate`)
are external collaborators and are passed in as function parameters.
Python exceptions are modelled with `Except`; an exception that the
wrapper does not catch surfaces as `Outcome.uncaught`.
-/

/-- A JSON value, as produced by `json.loads`.  Numbers are modelled as
integers: none of the code under study computes with them. -/
inductive JSON where
  | null : JSON
  | bool (b : Bool) : JSON
  | num (n : Int) : JSON
  | str (s : String) : JSON
  | arr (elems : List JSON) : JSON
  | obj (fields : List (String × JSON)) : JSON

/-- Equality of a JSON value with a Python string, as used by `key in list`:
a string compares equal only to an equal string. -/
def JSON.isStrEq (v : JSON) (s : String) : Bool :=
  match v with
  | .str t => t == s
  | _ => false

/-- `needle` is a prefix of `hay` (character lists). -/
def startsWithChars : List Char → List Char → Bool
  | [], _ => true
  | _ :: _, [] => false
  | a :: as, b :: bs => a == b && startsWithChars as bs

/-- `needle` occurs as a contiguous substring of `hay` (character lists);
Python's `key in str`. -/
def containsChars (needle : List Char) : List Char → Bool
  | [] => startsWithChars needle []
  | c :: rest => startsWithChars needle (c :: rest) || containsChars needle rest

/-- Python's `key in data` on a JSON value: key membership for a dict,
element membership for a list, substring test for a string, and a
`TypeError` for the non-iterable values. -/
def pyContains (data : JSON) (key : String) : Except String Bool :=
  match data with
  | .obj fields => .ok (fields.any (fun kv => kv.1 == key))
  | .arr elems => .ok (elems.any (fun v => v.isStrEq key))
  | .str s => .ok (containsChars key.data s.data)
  | _ => .error "TypeError: argument is not iterable"

/-- One property of the schema's `properties` mapping: the only field the
code reads is its optional `default`. -/
structure SchemaProp where
  default? : Option JSON

/-- A JSON-Schema document as the code uses it: `schema.get('properties', {})`
is the `properties` field, a missing `properties` key being the empty list.
All other schema keywords are only seen by the black-box validator. -/
structure Schema where
  properties : List (String × SchemaProp)

/-- An identity record; existence is the only fact the code checks. -/
structure User where
  id : String

/-- The request context threaded through the middleware chain.
`contentType` is `request.META.get('CONTENT_TYPE')`, `POST` and `GET` are
the form and query parameter mappings, `sessionUserId` is
`request.session.get('user_id')`; `user`, `data`, `page` and `size` are
the middleware-attached fields, absent until a wrapper sets them. -/
structure Request where
  method : String
  contentType : Option String
  body : String
  POST : List (String × String)
  GET : List (String × String)
  sessionUserId : Option String
  user : Option User := none
  data : Option (List (String × JSON)) := none
  page : Option Int := none
  size : Option Int := none

/-- An HTTP response: status code and content body (`""` = empty body). -/
structure Response where
  status : Nat
  content : String

/-- Modelled from the spec: `HttpResponseIncorrectParameter` lives in
`pcr/response.py`, which is not among the sources; per the spec it is the
"incorrect parameter" error response type with a fixed status (400 in this
model) carrying a human-readable error description as content. -/
def HttpResponseIncorrectParameter (content : String) : Response :=
  { status := 400, content := content }

/-- What running a wrapped handler on a request produced. -/
inductive Outcome where
  | response (r : Response) : Outcome
  | uncaught (err : String) : Outcome

/-- Result of running a wrapper: the outcome, the request context as the
wrapper left it, and whether the inner handler was invoked. -/
structure WrapResult where
  outcome : Outcome
  request : Request
  handlerCalled : Bool

/-- `authenticate` (utils.py lines 13-29): resolve the session-bound user
via the identity store `store`; on failure answer 401, on success attach
the user and delegate. `request.session.get('user_id')` may be absent and
`User.objects.get` with no matching id raises `User.DoesNotExist`, both
covered by the `none` case of `Option.bind`. -/
def authenticate (store : String → Option User) (func : Request → Response)
    (request : Request) : WrapResult :=
  match request.sessionUserId.bind store with
  | none => { outcome := .response { status := 401, content := "" }, request := request, handlerCalled := false }
  | some user =>
    let request' := { request with user := some user }
    { outcome := .response (func request'), request := request', handlerCalled := true }

/-- `allow` (utils.py lines 32-47): reject with 404 any verb outside the
allowed list, otherwise delegate unchanged. -/
def allow (methods : List String) (func : Request → Response)
    (request : Request) : WrapResult :=
  if request.method ∉ methods then
    { outcome := .response { status := 404, content := "" }, request := request, handlerCalled := false }
  else
    { outcome := .response (func request), request := request, handlerCalled := true }

/-- Form and query parameter mappings seen as the dict the validator and
the normalization receive: a JSON object with string values. -/
def queryDictToJSON (params : List (String × String)) : JSON :=
  .obj (params.map (fun kv => (kv.1, .str kv.2)))

/-- Input-source selection of `parameter` (utils.py lines 61-71): a
declared `application/json` content type parses the body (`jsonLoads`
models `json.loads`, an error being `json.decoder.JSONDecodeError`);
otherwise POST uses form parameters, GET uses query parameters, and any
other verb an empty mapping. -/
def selectInput (jsonLoads : String → Except String JSON)
    (request : Request) : Except String JSON :=
  if request.contentType = some "application/json" then
    jsonLoads request.body
  else if request.method = "POST" then
    .ok (queryDictToJSON request.POST)
  else if request.method = "GET" then
    .ok (queryDictToJSON request.GET)
  else
    .ok (.obj [])

/-- One key of the dict comprehension of `parameter` (utils.py lines
77-81): the membership test `key in data` runs first (it can raise a
`TypeError`), a contained key then reads `data.get(key)` (an
`AttributeError` when `data` is not a dict), and otherwise the key is
kept exactly when it declares a default (`none` = key omitted). -/
def normStep (data : JSON) (key : String) (prop : SchemaProp) :
    Except String (Option (String × JSON)) :=
  match pyContains data key with
  | .error e => .error e
  | .ok true =>
    match data with
    | .obj fields => .ok (some (key, (List.lookup key fields).getD .null))
    | _ => .error "AttributeError: object has no attribute get"
  | .ok false =>
    match prop.default? with
    | some d => .ok (some (key, d))
    | none => .ok none

/-- The dict comprehension of `parameter` (utils.py lines 77-81):
`{key: data.get(key) if key in data else properties[key]['default']
for key in properties if key in data or 'default' in properties[key]}`,
iterating the declared properties in order and propagating the first
exception a step raises. -/
def pcrNormalize (data : JSON) : List (String × SchemaProp) → Except String (List (String × JSON))
  | [] => .ok []
  | (key, prop) :: rest =>
    (normStep data key prop).bind fun kv? =>
      (pcrNormalize data rest).bind fun tail =>
        .ok (kv?.elim tail (· :: tail))

/-- Validate-then-normalize half of `parameter` (utils.py lines 72-82),
applied to the already-selected input: a `ValidationError` from the
black-box validator (`validateFn d = some err`) answers the incorrect
parameter response; on success the normalized mapping becomes
`request.data` and the inner handler runs.  An exception raised by the
normalization itself is not caught anywhere and escapes as `uncaught`. -/
def processData (validateFn : JSON → Option String) (schema : Schema)
    (func : Request → Response) (request : Request) :
    Except String JSON → WrapResult
  | .error err => { outcome := .response (HttpResponseIncorrectParameter err), request := request, handlerCalled := false }
  | .ok data =>
    match validateFn data with
    | some err => { outcome := .response (HttpResponseIncorrectParameter err), request := request, handlerCalled := false }
    | none =>
      match pcrNormalize data schema.properties with
      | .error e => { outcome := .uncaught e, request := request, handlerCalled := false }
      | .ok m =>
        let request' := { request with data := some m }
        { outcome := .response (func request'), request := request', handlerCalled := true }

/-- `parameter` (utils.py lines 50-86): select the input mapping, then
validate, normalize and delegate. -/
def parameter (jsonLoads : String → Except String JSON)
    (validateFn : JSON → Option String) (schema : Schema)
    (func : Request → Response) (request : Request) : WrapResult :=
  processData validateFn schema func request (selectInput jsonLoads request)

/-- A whitespace character as `int(str)`'s stripping accepts it. -/
def isPySpace (c : Char) : Bool :=
  c = ' ' || c = '\t' || c = '\n' || c = '\r' || c = '\x0b' || c = '\x0c'

/-- Drop leading whitespace from a character list. -/
def dropSpaces : List Char → List Char
  | [] => []
  | c :: cs => if isPySpace c then dropSpaces cs else c :: cs

/-- The numeric value of a decimal digit character. -/
def digitVal (c : Char) : Option Nat :=
  if '0' ≤ c ∧ c ≤ '9' then some (c.toNat - 48) else none

/-- Accumulate a decimal digit run; any non-digit is a `ValueError`. -/
def parseNatDigitsGo : Nat → List Char → Option Nat
  | acc, [] => some acc
  | acc, c :: cs =>
    match digitVal c with
    | some d => parseNatDigitsGo (acc * 10 + d) cs
    | none => none

/-- A nonempty decimal digit run as a natural number. -/
def parseNatDigits : List Char → Option Nat
  | [] => none
  | cs => parseNatDigitsGo 0 cs

/-- Python's `int` applied to a string: `none` models a `ValueError`.
Whitespace is stripped on both sides, one optional sign precedes a
nonempty digit run. -/
def pyInt (s : String) : Option Int :=
  match dropSpaces (dropSpaces s.data.reverse).reverse with
  | '+' :: cs => (parseNatDigits cs).map Int.ofNat
  | '-' :: cs => (parseNatDigits cs).map (fun n => -(Int.ofNat n))
  | cs => (parseNatDigits cs).map Int.ofNat

/-- `pagination` (utils.py lines 89-117): non-GET requests pass through
untouched; GET requests read `page` (default `"1"`) and `size` (default
`str(default)`) from the query parameters, parse both as integers
(`ValueError` answers the incorrect parameter response) and set
`request.page` unclamped and `request.size` clamped into
`[min_size, max_size]`.  `request.page` is assigned before `int(size)`
runs, so a size parse failure leaves the page already attached. -/
def pagination (dflt min_size max_size : Int) (func : Request → Response)
    (request : Request) : WrapResult :=
  if request.method ≠ "GET" then
    { outcome := .response (func request), request := request, handlerCalled := true }
  else
    let page := (List.lookup "page" request.GET).getD "1"
    let size := (List.lookup "size" request.GET).getD (toString dflt)
    match pyInt page with
    | none =>
      { outcome := .response (HttpResponseIncorrectParameter ("invalid literal for int with base 10: " ++ page)),
        request := request, handlerCalled := false }
    | some p =>
      let request1 := { request with page := some p }
      match pyInt size with
      | none =>
        { outcome := .response (HttpResponseIncorrectParameter ("invalid literal for int with base 10: " ++ size)),
          request := request1, handlerCalled := false }
      | some s =>
        let request2 := { request1 with size := some (min (max s min_size) max_size) }
        { outcome := .response (func request2), request := request2, handlerCalled := true }

/-- One property name, as the specification words the normalization: a
name present as a key in the input mapping keeps the input's value as-is
(presence, not truthiness), an absent one with a declared default gets
the default, everything else is omitted. -/
def normSpecStep (input : List (String × JSON)) (kp : String × SchemaProp) :
    Option (String × JSON) :=
  match List.lookup kp.1 input with
  | some v => some (kp.1, v)
  | none => kp.2.default?.map (fun d => (kp.1, d))

/-- The normalization as the specification words it: the output keys are
exactly the schema property names either present in the input mapping or
declaring a default, each with the value `normSpecStep` describes. -/
def normalizeSpec (props : List (String × SchemaProp))
    (input : List (String × JSON)) : List (String × JSON) :=
  props.filterMap (normSpecStep input)

/-- First-hit choice between two optional values. -/
def orOpt (a b : Option JSON) : Option JSON :=
  match a with
  | some v => some v
  | none => b

theorem lookup_isSome_eq_any (key : String) (fields : List (String × JSON)) :
    (List.lookup key fields).isSome = fields.any (fun kv => kv.1 == key) := by
  induction fields with
  | nil => rfl
  | cons hd t ih =>
    obtain ⟨k, v⟩ := hd
    by_cases h : k = key
    · subst h
      simp [List.lookup]
    · have h1 : (key == k) = false := beq_eq_false_iff_ne.mpr (fun e => h e.symm)
      have h2 : (k == key) = false := beq_eq_false_iff_ne.mpr h
      simp [List.lookup, h1, h2, ih]

theorem lookup_eq_none_of_not_mem_keys (k : String) :
    ∀ l : List (String × JSON), k ∉ l.map Prod.fst → List.lookup k l = none := by
  intro l
  induction l with
  | nil => intro _; rfl
  | cons hd t ih =>
    intro h
    obtain ⟨k0, v0⟩ := hd
    have h1 : k ≠ k0 := fun e => h (by simp [e])
    have h2 : k ∉ t.map Prod.fst := fun m => h (by simp [m])
    have hne : (k == k0) = false := beq_eq_false_iff_ne.mpr h1
    simp [List.lookup, hne, ih h2]

theorem normStep_obj (fields : List (String × JSON)) (key : String) (prop : SchemaProp) :
    normStep (.obj fields) key prop
      = .ok (normSpecStep fields (key, prop)) := by
  cases hlk : List.lookup key fields with
  | some v =>
    have hany : (fields.any fun kv => kv.1 == key) = true := by
      rw [← lookup_isSome_eq_any, hlk]; rfl
    simp [normStep, pyContains, hany, normSpecStep, hlk]
  | none =>
    have hany : (fields.any fun kv => kv.1 == key) = false := by
      rw [← lookup_isSome_eq_any, hlk]; rfl
    cases hdef : prop.default? with
    | some d => simp [normStep, pyContains, hany, hdef, normSpecStep, hlk]
    | none => simp [normStep, pyContains, hany, hdef, normSpecStep, hlk]

theorem pcrNormalize_obj (fields : List (String × JSON)) :
    ∀ props : List (String × SchemaProp),
      pcrNormalize (.obj fields) props = .ok (normalizeSpec props fields) := by
  intro props
  induction props with
  | nil => rfl
  | cons hd rest ih =>
    obtain ⟨key, prop⟩ := hd
    rw [pcrNormalize, normStep_obj, ih]
    cases hstep : normSpecStep fields (key, prop) with
    | some kv => simp [normalizeSpec, List.filterMap_cons, hstep, Except.bind, Option.elim]
    | none => simp [normalizeSpec, List.filterMap_cons, hstep, Except.bind, Option.elim]

theorem normSpecStep_fst (input : List (String × JSON)) (kp : String × SchemaProp)
    (x : String × JSON) (h : normSpecStep input kp = some x) : x.1 = kp.1 := by
  unfold normSpecStep at h
  cases hlk : List.lookup kp.1 input with
  | some v =>
    rw [hlk] at h
    cases h
    rfl
  | none =>
    rw [hlk] at h
    cases hdef : kp.2.default? with
    | some d =>
      rw [hdef] at h
      cases h
      rfl
    | none =>
      rw [hdef] at h
      cases h

theorem normalizeSpec_keys_sub (props : List (String × SchemaProp))
    (input : List (String × JSON)) (k : String)
    (h : k ∈ (normalizeSpec props input).map Prod.fst) : k ∈ props.map Prod.fst := by
  rcases List.mem_map.mp h with ⟨x, hx, hxk⟩
  rcases List.mem_filterMap.mp hx with ⟨kp, hkp, hf⟩
  exact List.mem_map.mpr ⟨kp, hkp, by rw [← hxk, normSpecStep_fst input kp x hf]⟩

theorem normalizeSpec_cons (hd : String × SchemaProp) (props : List (String × SchemaProp))
    (input : List (String × JSON)) :
    normalizeSpec (hd :: props) input
      = (normSpecStep input hd).elim (normalizeSpec props input)
          (· :: normalizeSpec props input) := by
  rw [normalizeSpec, normalizeSpec, List.filterMap_cons]
  cases normSpecStep input hd <;> rfl

theorem normSpecStep_none (input : List (String × JSON)) (kp : String × SchemaProp)
    (h : normSpecStep input kp = none) :
    List.lookup kp.1 input = none ∧ kp.2.default? = none := by
  unfold normSpecStep at h
  cases hlk : List.lookup kp.1 input with
  | some v => rw [hlk] at h; cases h
  | none =>
    rw [hlk] at h
    cases hdef : kp.2.default? with
    | some d => rw [hdef] at h; simp at h
    | none => exact ⟨rfl, rfl⟩

theorem normSpecStep_some_snd (input : List (String × JSON)) (kp : String × SchemaProp)
    (x : String × JSON) (h : normSpecStep input kp = some x) :
    orOpt (List.lookup kp.1 input) kp.2.default? = some x.2 := by
  unfold normSpecStep at h
  cases hlk : List.lookup kp.1 input with
  | some v =>
    rw [hlk] at h
    injection h with h2
    rw [← h2]
    rfl
  | none =>
    rw [hlk] at h
    cases hdef : kp.2.default? with
    | some d =>
      rw [hdef] at h
      simp only [Option.map_some'] at h
      injection h with h2
      rw [← h2]
      rfl
    | none =>
      rw [hdef] at h
      simp at h

theorem lookup_normalizeSpec (input : List (String × JSON)) (k : String) (p : SchemaProp) :
    ∀ props : List (String × SchemaProp), (props.map Prod.fst).Nodup → (k, p) ∈ props →
      List.lookup k (normalizeSpec props input) = orOpt (List.lookup k input) p.default? := by
  intro props
  induction props with
  | nil => intro _ hmem; cases hmem
  | cons hd rest ih =>
    intro hnd hmem
    obtain ⟨k0, p0⟩ := hd
    rw [List.map_cons, List.nodup_cons] at hnd
    rw [normalizeSpec_cons]
    rcases List.mem_cons.mp hmem with heq | hmem'
    · injection heq with h1 h2
      subst h1
      subst h2
      cases hs : normSpecStep input (k, p) with
      | some x =>
        obtain ⟨x1, x2⟩ := x
        have hx1 : x1 = k := normSpecStep_fst input (k, p) (x1, x2) hs
        have hsnd := normSpecStep_some_snd input (k, p) (x1, x2) hs
        simp only [Option.elim]
        rw [hx1]
        simp only [List.lookup, beq_self_eq_true]
        exact hsnd.symm
      | none =>
        obtain ⟨hlk, hdef⟩ := normSpecStep_none input (k, p) hs
        have hnotin : k ∉ (normalizeSpec rest input).map Prod.fst :=
          fun hmem2 => hnd.1 (normalizeSpec_keys_sub rest input k hmem2)
        simp only [Option.elim]
        rw [show List.lookup (k, p).1 input = none from hlk, hdef,
          lookup_eq_none_of_not_mem_keys k (normalizeSpec rest input) hnotin]
        rfl
    · have hkmem : k ∈ rest.map Prod.fst := List.mem_map.mpr ⟨(k, p), hmem', rfl⟩
      have hne : (k == k0) = false :=
        beq_eq_false_iff_ne.mpr (fun e => hnd.1 (e ▸ hkmem))
      cases hs : normSpecStep input (k0, p0) with
      | some x =>
        obtain ⟨x1, x2⟩ := x
        have hx1 : x1 = k0 := normSpecStep_fst input (k0, p0) (x1, x2) hs
        subst hx1
        simp only [Option.elim]
        rw [List.lookup]
        simp only [hne]
        exact ih hnd.2 hmem'
      | none =>
        simp only [Option.elim]
        exact ih hnd.2 hmem'

theorem normalizeSpec_congr (input m : List (String × JSON)) :
    ∀ props : List (String × SchemaProp),
      (∀ kp, kp ∈ props →
        List.lookup kp.1 m = orOpt (List.lookup kp.1 input) kp.2.default?) →
      normalizeSpec props m = normalizeSpec props input := by
  intro props
  induction props with
  | nil => intro _; rfl
  | cons hd rest ih =>
    intro h
    have hh := h hd (List.mem_cons_self hd rest)
    have ht := ih (fun kp hkp => h kp (List.mem_cons_of_mem hd hkp))
    have hstep : normSpecStep m hd = normSpecStep input hd := by
      unfold normSpecStep
      rw [hh]
      cases hlk : List.lookup hd.1 input with
      | some v => rfl
      | none =>
        cases hdef : hd.2.default? with
        | some d => rfl
        | none => rfl
    rw [normalizeSpec_cons, normalizeSpec_cons, hstep, ht]

theorem normalizeSpec_idem (props : List (String × SchemaProp))
    (input : List (String × JSON)) (hnd : (props.map Prod.fst).Nodup) :
    normalizeSpec props (normalizeSpec props input) = normalizeSpec props input := by
  apply normalizeSpec_congr
  intro kp hkp
  obtain ⟨k, p⟩ := kp
  exact lookup_normalizeSpec input k p props hnd hkp


/-! ### Concrete fixtures used by the witnesses -/

def handlerW : Request → Response := fun _ => { status := 200, content := "ok" }

def validateOkW : JSON → Option String := fun _ => none

def jsonLoadsErrW : String → Except String JSON := fun _ => .error "Expecting value"

def jsonLoadsObjW : String → Except String JSON := fun _ => .ok (.obj [])

def jsonLoadsNum : String → Except String JSON := fun s =>
  if s = "5" then .ok (.num 5) else .error "Expecting value"

def schemaW : Schema := ⟨[("name", ⟨some (.str "anon")⟩), ("age", ⟨none⟩)]⟩

def storeW : String → Option User := fun i => if i = "u1" then some ⟨"u1"⟩ else none

def reqAuthNone : Request :=
  { method := "GET", contentType := none, body := "", POST := [], GET := [],
    sessionUserId := none }

def reqAuthOk : Request :=
  { method := "GET", contentType := none, body := "", POST := [], GET := [],
    sessionUserId := some "u1" }

def reqPost : Request :=
  { method := "POST", contentType := none, body := "", POST := [("name", "alice")],
    GET := [], sessionUserId := none }

def reqJsonW : Request :=
  { method := "POST", contentType := some "application/json", body := "",
    POST := [], GET := [], sessionUserId := none }

def reqJsonNum : Request :=
  { method := "POST", contentType := some "application/json", body := "5",
    POST := [], GET := [], sessionUserId := none }

def reqSize999 : Request :=
  { method := "GET", contentType := none, body := "", POST := [],
    GET := [("size", "999")], sessionUserId := none }

def reqSize0 : Request :=
  { method := "GET", contentType := none, body := "", POST := [],
    GET := [("size", "0")], sessionUserId := none }

def reqNoParams : Request :=
  { method := "GET", contentType := none, body := "", POST := [], GET := [],
    sessionUserId := none }

def reqBadSize : Request :=
  { method := "GET", contentType := none, body := "", POST := [],
    GET := [("page", "2"), ("size", "abc")], sessionUserId := none }

def reqGetQuery : Request :=
  { method := "GET", contentType := none, body := "", POST := [],
    GET := [("q", "x")], sessionUserId := none }

/-! ### The claims -/

/-- C7: a request whose session carries no user identifier, or whose
identifier matches no identity record (`Option.bind` into the store is
`none`), gets a 401 response with empty body and the inner handler is
never invoked; a resolving identifier is attached as `request.user` and
the wrapper delegates to the inner handler. -/
theorem authenticate_guard (store : String → Option User) (func : Request → Response)
    (request : Request) :
    (request.sessionUserId.bind store = none →
      authenticate store func request
        = { outcome := .response { status := 401, content := "" },
            request := request, handlerCalled := false })
    ∧ (∀ u, request.sessionUserId.bind store = some u →
        (authenticate store func request).request.user = some u
        ∧ (authenticate store func request).handlerCalled = true
        ∧ (authenticate store func request).outcome
            = .response (func { request with user := some u })) := by
  constructor
  · intro h
    simp [authenticate, h]
  · intro u h
    simp [authenticate, h]

theorem authenticate_guard_witness :
    authenticate storeW handlerW reqAuthNone
      = { outcome := .response { status := 401, content := "" },
          request := reqAuthNone, handlerCalled := false }
    ∧ (authenticate storeW handlerW reqAuthOk).request.user = some ⟨"u1"⟩ :=
  ⟨(authenticate_guard storeW handlerW reqAuthNone).1 rfl,
   ((authenticate_guard storeW handlerW reqAuthOk).2 ⟨"u1"⟩ rfl).1⟩

/-- C8: a request whose verb is not in the allowed list gets a 404
response (deliberately not 405) and the inner handler is never invoked;
an allowed verb delegates with the request unchanged. -/
theorem allow_guard (methods : List String) (func : Request → Response)
    (request : Request) :
    (request.method ∉ methods →
      allow methods func request
        = { outcome := .response { status := 404, content := "" },
            request := request, handlerCalled := false })
    ∧ (request.method ∈ methods →
      allow methods func request
        = { outcome := .response (func request), request := request,
            handlerCalled := true }) := by
  constructor
  · intro h
    simp [allow, h]
  · intro h
    simp [allow, h]

theorem allow_guard_witness :
    allow ["POST"] handlerW reqAuthNone
      = { outcome := .response { status := 404, content := "" },
          request := reqAuthNone, handlerCalled := false }
    ∧ allow ["GET", "POST"] handlerW reqAuthNone
      = { outcome := .response (handlerW reqAuthNone), request := reqAuthNone,
          handlerCalled := true } :=
  ⟨(allow_guard ["POST"] handlerW reqAuthNone).1 (by decide),
   (allow_guard ["GET", "POST"] handlerW reqAuthNone).2 (by decide)⟩

/-- C9: a request whose verb is not GET passes through `pagination`
untouched: the inner handler is invoked on the unchanged request context,
so neither `request.page` nor `request.size` is set. -/
theorem pagination_non_get_unchanged (dflt mn mx : Int) (func : Request → Response)
    (request : Request) (h : request.method ≠ "GET") :
    pagination dflt mn mx func request
      = { outcome := .response (func request), request := request,
          handlerCalled := true } := by
  simp [pagination, h]

theorem pagination_non_get_unchanged_witness :
    pagination 10 1 20 handlerW reqPost
      = { outcome := .response (handlerW reqPost), request := reqPost,
          handlerCalled := true } :=
  pagination_non_get_unchanged 10 1 20 handlerW reqPost (by decide)

/-- C3: on a GET request whose `page` parameter (default `"1"`) and `size`
parameter (default the stringified constructor default) both parse as
integers, `request.page` is the parsed page with no clamping,
`request.size` is the parsed size clamped into `[min_size, max_size]`,
and the inner handler runs.  The spec's instances follow at the witness:
defaults 10/1/20 give size 999 ↦ 20, size 0 ↦ 1, and no parameters
↦ page 1, size 10. -/
theorem pagination_get_sets_page_size (dflt mn mx : Int) (func : Request → Response)
    (request : Request) (p s : Int)
    (hm : request.method = "GET")
    (hp : pyInt ((List.lookup "page" request.GET).getD "1") = some p)
    (hs : pyInt ((List.lookup "size" request.GET).getD (toString dflt)) = some s) :
    (pagination dflt mn mx func request).request.page = some p
    ∧ (pagination dflt mn mx func request).request.size = some (min (max s mn) mx)
    ∧ (pagination dflt mn mx func request).handlerCalled = true := by
  have hne : ¬(request.method ≠ "GET") := fun h => h hm
  simp [pagination, hne, hp, hs]

theorem pagination_get_sets_page_size_witness :
    (pagination 10 1 20 handlerW reqSize999).request.size = some 20
    ∧ (pagination 10 1 20 handlerW reqSize0).request.size = some 1
    ∧ (pagination 10 1 20 handlerW reqNoParams).request.page = some 1
    ∧ (pagination 10 1 20 handlerW reqNoParams).request.size = some 10 := by
  refine ⟨?_, ?_, ?_, ?_⟩
  · have h := pagination_get_sets_page_size 10 1 20 handlerW reqSize999 1 999
      rfl (by decide) (by decide)
    rw [h.2.1]; decide
  · have h := pagination_get_sets_page_size 10 1 20 handlerW reqSize0 1 0
      rfl (by decide) (by decide)
    rw [h.2.1]; decide
  · exact (pagination_get_sets_page_size 10 1 20 handlerW reqNoParams 1 10
      rfl (by decide) (by decide)).1
  · have h := pagination_get_sets_page_size 10 1 20 handlerW reqNoParams 1 10
      rfl (by decide) (by decide)
    rw [h.2.1]; decide

/-- C10: on a GET request whose `page` parameter parses but whose `size`
parameter does not, `pagination` answers the incorrect parameter response
without invoking the inner handler, yet `request.page` has already been
set to the parsed page — the context is partially mutated — while
`request.size` is left as it was. -/
theorem pagination_partial_mutation (dflt mn mx : Int) (func : Request → Response)
    (request : Request) (p : Int)
    (hm : request.method = "GET")
    (hp : pyInt ((List.lookup "page" request.GET).getD "1") = some p)
    (hs : pyInt ((List.lookup "size" request.GET).getD (toString dflt)) = none) :
    (pagination dflt mn mx func request).handlerCalled = false
    ∧ (∃ c, (pagination dflt mn mx func request).outcome
        = .response (HttpResponseIncorrectParameter c))
    ∧ (pagination dflt mn mx func request).request.page = some p
    ∧ (pagination dflt mn mx func request).request.size = request.size := by
  have hne : ¬(request.method ≠ "GET") := fun h => h hm
  simp [pagination, hne, hp, hs]

theorem pagination_partial_mutation_witness :
    (pagination 10 1 20 handlerW reqBadSize).handlerCalled = false
    ∧ (pagination 10 1 20 handlerW reqBadSize).request.page = some 2 := by
  have h := pagination_partial_mutation 10 1 20 handlerW reqBadSize 2
    rfl (by decide) (by decide)
  exact ⟨h.1, h.2.2.1⟩

theorem selectInput_nonjson_obj (jsonLoads : String → Except String JSON)
    (request : Request) (h : request.contentType ≠ some "application/json") :
    ∃ fields, selectInput jsonLoads request = .ok (.obj fields) := by
  unfold selectInput
  rw [if_neg h]
  by_cases h2 : request.method = "POST"
  · rw [if_pos h2]
    exact ⟨_, rfl⟩
  · rw [if_neg h2]
    by_cases h3 : request.method = "GET"
    · rw [if_pos h3]
      exact ⟨_, rfl⟩
    · rw [if_neg h3]
      exact ⟨[], rfl⟩

/-- C2: `parameter` selects its input mapping by priority order, the
branches mutually exclusive: a content type equal to `"application/json"`
parses the body regardless of verb, otherwise POST uses the form
parameters, otherwise GET uses the query parameters, otherwise the input
mapping is empty; and the wrapper is exactly the validate/normalize
pipeline applied to that selection. -/
theorem parameter_input_selection (jsonLoads : String → Except String JSON)
    (validateFn : JSON → Option String) (schema : Schema)
    (func : Request → Response) (request : Request) :
    parameter jsonLoads validateFn schema func request
      = processData validateFn schema func request (selectInput jsonLoads request)
    ∧ (request.contentType = some "application/json" →
        selectInput jsonLoads request = jsonLoads request.body)
    ∧ (request.contentType ≠ some "application/json" → request.method = "POST" →
        selectInput jsonLoads request = .ok (queryDictToJSON request.POST))
    ∧ (request.contentType ≠ some "application/json" → request.method ≠ "POST" →
        request.method = "GET" →
        selectInput jsonLoads request = .ok (queryDictToJSON request.GET))
    ∧ (request.contentType ≠ some "application/json" → request.method ≠ "POST" →
        request.method ≠ "GET" →
        selectInput jsonLoads request = .ok (.obj [])) := by
  refine ⟨rfl, ?_, ?_, ?_, ?_⟩
  · intro h1
    simp [selectInput, h1]
  · intro h1 h2
    simp [selectInput, h1, h2]
  · intro h1 h2 h3
    simp [selectInput, h1, h2, h3]
  · intro h1 h2 h3
    simp [selectInput, h1, h2, h3]

theorem parameter_input_selection_witness :
    selectInput jsonLoadsErrW reqGetQuery = .ok (queryDictToJSON reqGetQuery.GET) :=
  (parameter_input_selection jsonLoadsErrW validateOkW schemaW handlerW reqGetQuery).2.2.2.1
    (by decide) (by decide) rfl

/-- C1: when the selected input mapping is a JSON object that passes
validation, `parameter` sets `request.data` to exactly the normalization
the spec describes (`normalizeSpec`): keys are precisely the schema
properties present in the input or declaring a default, a present key
keeps the input value as-is (presence, not truthiness), an absent one
gets its default, and every other key — including input keys not in the
schema — is omitted; then the inner handler runs. -/
theorem parameter_data_exact (jsonLoads : String → Except String JSON)
    (validateFn : JSON → Option String) (schema : Schema)
    (func : Request → Response) (request : Request)
    (input : List (String × JSON))
    (hsel : selectInput jsonLoads request = .ok (.obj input))
    (hval : validateFn (.obj input) = none) :
    (parameter jsonLoads validateFn schema func request).request.data
      = some (normalizeSpec schema.properties input)
    ∧ (parameter jsonLoads validateFn schema func request).handlerCalled = true := by
  simp [parameter, hsel, processData, hval, pcrNormalize_obj]

theorem parameter_data_exact_witness :
    (parameter jsonLoadsObjW validateOkW schemaW handlerW reqJsonW).request.data
      = some [("name", JSON.str "anon")] := by
  have h := (parameter_data_exact jsonLoadsObjW validateOkW schemaW handlerW reqJsonW
    [] rfl rfl).1
  rw [h]
  rfl

/-- C5: the normalization is idempotent: a mapping `m` that is the output
of the `parameter` normalization step for a schema (whose property names
are distinct, as Python dict keys are) and that passes validation again
normalizes to itself — defaults are already filled and nothing further is
dropped. -/
theorem normalize_idempotent (props : List (String × SchemaProp))
    (input m : List (String × JSON)) (validateFn : JSON → Option String)
    (hnd : (props.map Prod.fst).Nodup)
    (hnorm : pcrNormalize (.obj input) props = .ok m)
    (hval : validateFn (.obj m) = none) :
    pcrNormalize (.obj m) props = .ok m := by
  have h1 := pcrNormalize_obj input props
  rw [hnorm] at h1
  injection h1 with h1
  subst h1
  rw [pcrNormalize_obj, normalizeSpec_idem props input hnd]

theorem normalize_idempotent_witness :
    pcrNormalize (.obj [("name", JSON.str "anon")]) schemaW.properties
      = .ok [("name", JSON.str "anon")] :=
  normalize_idempotent schemaW.properties [] [("name", JSON.str "anon")] validateOkW
    (by decide) rfl rfl

/-- C4: `parameter` answers the incorrect parameter response without
invoking the inner handler exactly when the input selection fails (a JSON
parse error, possible only under content type `"application/json"`) or
the selected input fails the black-box validation; both failures produce
`HttpResponseIncorrectParameter` — same response type and status — the
first carrying the parser's description, the second the validator's. -/
theorem parameter_incorrect_iff (jsonLoads : String → Except String JSON)
    (validateFn : JSON → Option String) (schema : Schema)
    (func : Request → Response) (request : Request) :
    (((parameter jsonLoads validateFn schema func request).handlerCalled = false
      ∧ ∃ c, (parameter jsonLoads validateFn schema func request).outcome
          = .response (HttpResponseIncorrectParameter c))
      ↔ ((∃ e, selectInput jsonLoads request = .error e)
         ∨ ∃ d err, selectInput jsonLoads request = .ok d ∧ validateFn d = some err))
    ∧ (∀ e, selectInput jsonLoads request = .error e →
        (parameter jsonLoads validateFn schema func request).outcome
          = .response (HttpResponseIncorrectParameter e))
    ∧ (∀ d err, selectInput jsonLoads request = .ok d → validateFn d = some err →
        (parameter jsonLoads validateFn schema func request).outcome
          = .response (HttpResponseIncorrectParameter err))
    ∧ (∀ e, selectInput jsonLoads request = .error e →
        request.contentType = some "application/json") := by
  refine ⟨?_, ?_, ?_, ?_⟩
  · cases hsel : selectInput jsonLoads request with
    | error e =>
      simp [parameter, hsel, processData, HttpResponseIncorrectParameter]
    | ok d =>
      cases hv : validateFn d with
      | some err =>
        simp [parameter, hsel, processData, hv, HttpResponseIncorrectParameter]
      | none =>
        cases hn : pcrNormalize d schema.properties with
        | error e => simp [parameter, hsel, processData, hv, hn]
        | ok m => simp [parameter, hsel, processData, hv, hn]
  · intro e he
    simp [parameter, he, processData]
  · intro d err hd hv
    simp [parameter, hd, processData, hv]
  · intro e he
    by_contra hct
    obtain ⟨fields, hf⟩ := selectInput_nonjson_obj jsonLoads request hct
    rw [he] at hf
    cases hf

theorem parameter_incorrect_iff_witness :
    (parameter jsonLoadsErrW validateOkW schemaW handlerW reqJsonW).outcome
      = Outcome.response (HttpResponseIncorrectParameter "Expecting value") :=
  (parameter_incorrect_iff jsonLoadsErrW validateOkW schemaW handlerW reqJsonW).2.1
    "Expecting value" rfl

theorem parameter_response_of_obj (jsonLoads : String → Except String JSON)
    (validateFn : JSON → Option String) (schema : Schema)
    (func : Request → Response) (request : Request)
    (hobj : ∀ v, selectInput jsonLoads request = .ok v → ∃ fields, v = .obj fields) :
    ∃ r, (parameter jsonLoads validateFn schema func request).outcome
        = .response r := by
  cases hsel : selectInput jsonLoads request with
  | error e =>
    exact ⟨HttpResponseIncorrectParameter e, by simp [parameter, hsel, processData]⟩
  | ok v =>
    obtain ⟨fields, rfl⟩ := hobj v hsel
    cases hv : validateFn (.obj fields) with
    | some err =>
      exact ⟨HttpResponseIncorrectParameter err,
        by simp [parameter, hsel, processData, hv]⟩
    | none =>
      refine ⟨func { request with data := some (normalizeSpec schema.properties fields) }, ?_⟩
      simp [parameter, hsel, processData, hv, pcrNormalize_obj]

/-- C6 (amended): every failure the `parameter` wrapper detects is
converted locally into a response — provided every successfully parsed
selected input is a JSON object; in particular this holds for every
request that does not declare content type `"application/json"` (form,
query and empty sources are always objects).  The restriction is forced:
a JSON body parsing to a non-object that passes validation makes the
normalization raise an uncaught `TypeError`/`AttributeError`
(see the counterexample). -/
theorem parameter_no_uncaught_on_object_input (jsonLoads : String → Except String JSON)
    (validateFn : JSON → Option String) (schema : Schema)
    (func : Request → Response) (request : Request) :
    ((∀ v, selectInput jsonLoads request = .ok v → ∃ fields, v = .obj fields) →
      ∃ r, (parameter jsonLoads validateFn schema func request).outcome
          = .response r)
    ∧ (request.contentType ≠ some "application/json" →
      ∃ r, (parameter jsonLoads validateFn schema func request).outcome
          = .response r) := by
  constructor
  · exact parameter_response_of_obj jsonLoads validateFn schema func request
  · intro h
    apply parameter_response_of_obj jsonLoads validateFn schema func request
    intro v hv
    obtain ⟨fields, hf⟩ := selectInput_nonjson_obj jsonLoads request h
    rw [hf] at hv
    injection hv with hv
    exact ⟨fields, hv.symm⟩

theorem parameter_no_uncaught_witness :
    ∃ r, (parameter jsonLoadsNum validateOkW schemaW handlerW reqPost).outcome
        = Outcome.response r :=
  (parameter_no_uncaught_on_object_input jsonLoadsNum validateOkW schemaW handlerW
    reqPost).2 (by decide)

/-- C6 counterexample: the claim "no exception escapes un-translated from
the `parameter` wrapper, for any JSON value the body may parse to" fails
on the code: content type `"application/json"`, body `"5"` (which
`json.loads` parses to the number 5 and which passes validation against a
schema whose `properties` keyword is ignored for non-objects) makes the
comprehension evaluate `'name' in 5`, and the resulting `TypeError`
escapes the wrapper uncaught. -/
theorem parameter_uncaught_nonobject_cex :
    (parameter jsonLoadsNum validateOkW schemaW handlerW reqJsonNum).outcome
      = Outcome.uncaught "TypeError: argument is not iterable" := rfl
